import Mathlib

/-!
Verification development for the mayhem-mandrill asynchronous
producer/consumer pipeline.

The embedding covers the three source variants:

* `Mayhem`  — `mayhem.py`, the converged variant: `PubSubMessage` with the
  status fields `restarted`, `saved`, `acked`; `handle_message` gathers
  `save(msg)` and `restart_host(msg)` as independent tasks, registers the
  `cleanup` callback on the combined future, and awaits it; `consume`
  dequeues messages and dispatches `handle_message` as an independently
  scheduled task.
* `Mayhem4` — `mayhem_4.py`, the bounded asyncio variant: the producer
  enqueues `n` messages followed by the `None` sentinel; the consumer
  stops on the sentinel.
* `Mayhem1` — `part_1/mayhem_1.py`, the synchronous bounded variant with
  the same producer/consumer logic over a blocking queue.

The asynchronous parts are modelled as explicit small-step interleaving
semantics: each `asyncio` suspension point becomes a step of a transition
relation, and every interleaving of the concurrently scheduled tasks is a
path of that relation.
-/

namespace Mayhem

/-- The message class of `mayhem.py`.  `attr.ib` declares `instance_name`
and `message_id` as constructor arguments, `hostname` as a non-`init`
field computed in `__attrs_post_init__`, and the three status fields with
default `False`. -/
structure PubSubMessage where
  instance_name : String
  message_id : String
  hostname : String
  restarted : Bool
  saved : Bool
  acked : Bool
deriving DecidableEq

/-- Construction of a `PubSubMessage` as `attrs` performs it: the caller
supplies `instance_name` and `message_id`, the status fields take their
declared defaults `False`, and `__attrs_post_init__` sets
`self.hostname = f"{self.instance_name}.example.net"`. -/
def PubSubMessage.make (instance_name message_id : String) : PubSubMessage :=
  { instance_name := instance_name
    message_id := message_id
    hostname := instance_name ++ ".example.net"
    restarted := false
    saved := false
    acked := false }

/-- The state mutation performed by `restart_host(msg)` after its
simulated latency (`await asyncio.sleep(random.random())`):
`msg.restarted = True`. -/
def restart_host (msg : PubSubMessage) : PubSubMessage :=
  { msg with restarted := true }

/-- The state mutation performed by `save(msg)` after its simulated
latency: `msg.saved = True`. -/
def save (msg : PubSubMessage) : PubSubMessage :=
  { msg with saved := true }

/-- Outcome carried by the combined `asyncio.gather` future when it
completes: either both child coroutines returned, or one of them raised. -/
inductive GatherResult
  | ok
  | failed
deriving DecidableEq

/-- The state mutation performed by the `cleanup(msg, fut)` callback:
`msg.acked = True`.  Note that the source ignores the future argument
`fut` entirely — the mutation is the same whether the gathered tasks
succeeded or failed. -/
def cleanup (msg : PubSubMessage) (fut : GatherResult) : PubSubMessage :=
  { msg with acked := true }

theorem cleanup_ignores_fut (msg : PubSubMessage) (f1 f2 : GatherResult) :
    cleanup msg f1 = cleanup msg f2 := rfl

/-- Claim C8: a freshly constructed message has `restarted`, `saved` and
`acked` all `false`, and each of the three mutating operations of the
pipeline leaves every status field either unchanged or set to `true` —
so each field only ever transitions `false → true` and is never reset. -/
theorem status_fields_monotone (n i : String) (m : PubSubMessage) (f : GatherResult) :
    ((PubSubMessage.make n i).restarted = false ∧
     (PubSubMessage.make n i).saved = false ∧
     (PubSubMessage.make n i).acked = false) ∧
    ((restart_host m).restarted = true ∧
     (restart_host m).saved = m.saved ∧
     (restart_host m).acked = m.acked) ∧
    ((save m).restarted = m.restarted ∧
     (save m).saved = true ∧
     (save m).acked = m.acked) ∧
    ((cleanup m f).restarted = m.restarted ∧
     (cleanup m f).saved = m.saved ∧
     (cleanup m f).acked = true) :=
  ⟨⟨rfl, rfl, rfl⟩, ⟨rfl, rfl, rfl⟩, ⟨rfl, rfl, rfl⟩, ⟨rfl, rfl, rfl⟩⟩

/-- Claim C10: frame conditions — each operation touches only its own
status field: `restart_host` sets only `restarted`, `save` sets only
`saved`, and the `cleanup` callback sets only `acked`; none of them
modifies `instance_name`, `message_id`, the derived `hostname`, or either
of the other two status fields. -/
theorem operations_frame_conditions (m : PubSubMessage) (f : GatherResult) :
    (restart_host m = { m with restarted := true } ∧
     (restart_host m).instance_name = m.instance_name ∧
     (restart_host m).message_id = m.message_id ∧
     (restart_host m).hostname = m.hostname ∧
     (restart_host m).saved = m.saved ∧
     (restart_host m).acked = m.acked) ∧
    (save m = { m with saved := true } ∧
     (save m).instance_name = m.instance_name ∧
     (save m).message_id = m.message_id ∧
     (save m).hostname = m.hostname ∧
     (save m).restarted = m.restarted ∧
     (save m).acked = m.acked) ∧
    (cleanup m f = { m with acked := true } ∧
     (cleanup m f).instance_name = m.instance_name ∧
     (cleanup m f).message_id = m.message_id ∧
     (cleanup m f).hostname = m.hostname ∧
     (cleanup m f).restarted = m.restarted ∧
     (cleanup m f).saved = m.saved) :=
  ⟨⟨rfl, rfl, rfl, rfl, rfl, rfl⟩,
   ⟨rfl, rfl, rfl, rfl, rfl, rfl⟩,
   ⟨rfl, rfl, rfl, rfl, rfl, rfl⟩⟩

/-- Progress state of one of the two coroutines gathered by
`handle_message`: still inside its `asyncio.sleep` (`running`), returned
normally after setting its status field (`done`), or raised
`OperationFailed` without setting its field (`errored` — only possible in
the failure-enabled semantics below; the stub sub-operations of
`mayhem.py` as written always succeed). -/
inductive SubTask
  | running
  | done
  | errored
deriving DecidableEq

/-- A sub-task counts as finished for the combined gather future whether
it returned or raised. -/
def SubTask.finished : SubTask → Bool
  | SubTask.running => false
  | SubTask.done => true
  | SubTask.errored => true

/-- The scheduler-visible state of one execution of
`handle_message(msg)`: the message being mutated, the progress of the two
gathered sub-tasks, how many times the `cleanup` done-callback has run,
and whether the coroutine suspended at `await g_future` has resumed
normally (i.e. `handle_message` returned). -/
structure HandlerState where
  msg : PubSubMessage
  saveTask : SubTask
  restartTask : SubTask
  cleanupRuns : Nat
  resumed : Bool
deriving DecidableEq

/-- State of `handle_message(msg)` right after `asyncio.gather` has
scheduled `save(msg)` and `restart_host(msg)`, the `cleanup` callback has
been registered, and the coroutine has suspended on `await g_future`. -/
def initHandler (msg : PubSubMessage) : HandlerState :=
  { msg := msg
    saveTask := SubTask.running
    restartTask := SubTask.running
    cleanupRuns := 0
    resumed := false }

/-- The combined `gather` future is done exactly when both child tasks
have finished. -/
def gatherDone (s : HandlerState) : Bool :=
  s.saveTask.finished && s.restartTask.finished

/-- Whether some gathered child raised. -/
def hasError (s : HandlerState) : Bool :=
  (s.saveTask == SubTask.errored) || (s.restartTask == SubTask.errored)

/-- The result the combined future carries once done. -/
def gatherResult (s : HandlerState) : GatherResult :=
  if hasError s then GatherResult.failed else GatherResult.ok

/-- Small-step interleaving semantics of `handle_message` as the source
is written (the stub sub-operations always succeed).  The asyncio event
loop may run the two sleeping sub-tasks in either order; once both have
finished, the done-callbacks of the gather future run in the order they
were registered: `cleanup` was added (line `g_future.add_done_callback(callback)`)
before `await g_future` registered the task wakeup, and asyncio invokes
done-callbacks in registration order, so `cleanup` runs before the
suspended coroutine resumes. -/
inductive Step : HandlerState → HandlerState → Prop
  | saveDone : ∀ s : HandlerState, s.saveTask = SubTask.running →
      Step s { s with msg := save s.msg, saveTask := SubTask.done }
  | restartDone : ∀ s : HandlerState, s.restartTask = SubTask.running →
      Step s { s with msg := restart_host s.msg, restartTask := SubTask.done }
  | runCallback : ∀ s : HandlerState, gatherDone s = true → s.cleanupRuns = 0 →
      Step s { s with msg := cleanup s.msg (gatherResult s),
                      cleanupRuns := s.cleanupRuns + 1 }
  | resume : ∀ s : HandlerState, gatherDone s = true → s.cleanupRuns = 1 →
      s.resumed = false → gatherResult s = GatherResult.ok →
      Step s { s with resumed := true }

/-- Reachability in zero or more handler steps. -/
def Reaches : HandlerState → HandlerState → Prop :=
  Relation.ReflTransGen Step

/-- Inductive invariant of the handler semantics, for a handler started
on a freshly constructed message (all status fields `false`). -/
def HandlerInv (s : HandlerState) : Prop :=
  (s.msg.saved = true ↔ s.saveTask = SubTask.done) ∧
  (s.msg.restarted = true ↔ s.restartTask = SubTask.done) ∧
  (s.msg.acked = true ↔ 1 ≤ s.cleanupRuns) ∧
  s.cleanupRuns ≤ 1 ∧
  (1 ≤ s.cleanupRuns → gatherDone s = true) ∧
  (s.resumed = true → s.cleanupRuns = 1) ∧
  s.saveTask ≠ SubTask.errored ∧
  s.restartTask ≠ SubTask.errored

theorem initHandler_inv (n i : String) :
    HandlerInv (initHandler (PubSubMessage.make n i)) := by
  refine ⟨?_, ?_, ?_, ?_, ?_, ?_, ?_, ?_⟩ <;>
    simp [initHandler, PubSubMessage.make, gatherDone, SubTask.finished]

theorem step_inv {s t : HandlerState} (hinv : HandlerInv s) (h : Step s t) :
    HandlerInv t := by
  obtain ⟨h1, h2, h3, h4, h5, h6, h7, h8⟩ := hinv
  cases h with
  | saveDone hrun =>
      refine ⟨by simp [save], by simpa [save] using h2, by simpa [save] using h3,
        h4, ?_, by simpa using h6, by simp, by simpa using h8⟩
      intro hc
      have := h5 hc
      simp [gatherDone, hrun, SubTask.finished] at this
  | restartDone hrun =>
      refine ⟨by simpa [restart_host] using h1, by simp [restart_host],
        by simpa [restart_host] using h3, h4, ?_, by simpa using h6,
        by simpa using h7, by simp⟩
      intro hc
      have := h5 hc
      simp [gatherDone, hrun, SubTask.finished] at this
  | runCallback hdone hzero =>
      refine ⟨by simpa [cleanup] using h1, by simpa [cleanup] using h2,
        by simp [cleanup], by simp [hzero], ?_, by simp [hzero], by simpa using h7,
        by simpa using h8⟩
      intro _
      simpa [gatherDone] using hdone
  | resume hdone hone hres hok =>
      exact ⟨h1, h2, h3, h4, h5, fun _ => hone, h7, h8⟩

theorem reaches_inv {s t : HandlerState} (hinv : HandlerInv s) (h : Reaches s t) :
    HandlerInv t := by
  induction h with
  | refl => exact hinv
  | tail _ hstep ih => exact step_inv ih hstep

/-- A finished sub-task that did not error has completed normally. -/
theorem finished_not_errored {t : SubTask} (hf : t.finished = true)
    (he : t ≠ SubTask.errored) : t = SubTask.done := by
  cases t with
  | running => simp [SubTask.finished] at hf
  | done => rfl
  | errored => exact absurd rfl he

/-- When the invariant holds and the gather future is done, both status
fields written by the sub-operations are set. -/
theorem inv_gatherDone_flags {s : HandlerState} (hinv : HandlerInv s)
    (hdone : gatherDone s = true) :
    s.msg.restarted = true ∧ s.msg.saved = true := by
  obtain ⟨h1, h2, _, _, _, _, h7, h8⟩ := hinv
  have hfin : s.saveTask.finished = true ∧ s.restartTask.finished = true := by
    simpa [gatherDone, Bool.and_eq_true] using hdone
  exact ⟨h2.mpr (finished_not_errored hfin.2 h8),
         h1.mpr (finished_not_errored hfin.1 h7)⟩

/-- From a state where both sub-tasks have completed, the event loop
runs the pending done-callbacks: `cleanup` fires (if it has not yet) and
the suspended `handle_message` coroutine resumes. -/
theorem progress_ready {s : HandlerState} (hinv : HandlerInv s)
    (hs : s.saveTask = SubTask.done) (hr : s.restartTask = SubTask.done) :
    ∃ t, Reaches s t ∧ t.cleanupRuns = 1 ∧ t.resumed = true := by
  obtain ⟨h1, h2, h3, h4, h5, h6, h7, h8⟩ := hinv
  have hdone : gatherDone s = true := by simp [gatherDone, hs, hr, SubTask.finished]
  have hok : gatherResult s = GatherResult.ok := by
    simp [gatherResult, hasError, hs, hr]
  rcases Nat.lt_or_ge s.cleanupRuns 1 with hlt | hge
  · have hzero : s.cleanupRuns = 0 := by omega
    have hres : s.resumed = false := by
      cases hv : s.resumed
      · rfl
      · have := h6 hv
        omega
    refine ⟨_, Relation.ReflTransGen.head (Step.runCallback s hdone hzero)
      (Relation.ReflTransGen.single
        (Step.resume _ (by simpa [gatherDone] using hdone) (by simp [hzero])
          (by simpa using hres) (by simpa [gatherResult, hasError] using hok))),
      by simp [hzero], rfl⟩
  · have hone : s.cleanupRuns = 1 := by omega
    cases hv : s.resumed
    · exact ⟨_, Relation.ReflTransGen.single (Step.resume s hdone hone hv hok),
        hone, rfl⟩
    · exact ⟨s, Relation.ReflTransGen.refl, hone, hv⟩

/-- Progress with the save sub-task already completed. -/
theorem progress_save_done {s : HandlerState} (hinv : HandlerInv s)
    (hs : s.saveTask = SubTask.done) :
    ∃ t, Reaches s t ∧ t.cleanupRuns = 1 ∧ t.resumed = true := by
  cases hr : s.restartTask with
  | running =>
      have hstep := Step.restartDone s hr
      obtain ⟨t, ht, hc, hres⟩ := progress_ready (step_inv hinv hstep)
        (by simpa using hs) (by simp)
      exact ⟨t, Relation.ReflTransGen.head hstep ht, hc, hres⟩
  | done => exact progress_ready hinv hs hr
  | errored => exact absurd hr hinv.2.2.2.2.2.2.2

/-- From any invariant-satisfying handler state, the event loop can run
the handler to completion: both sub-tasks finish, `cleanup` has run
exactly once, and `handle_message` returns. -/
theorem handler_progress {s : HandlerState} (hinv : HandlerInv s) :
    ∃ t, Reaches s t ∧ t.cleanupRuns = 1 ∧ t.resumed = true := by
  cases hs : s.saveTask with
  | running =>
      have hstep := Step.saveDone s hs
      obtain ⟨t, ht, hc, hres⟩ := progress_save_done (step_inv hinv hstep) (by simp)
      exact ⟨t, Relation.ReflTransGen.head hstep ht, hc, hres⟩
  | done => exact progress_save_done hinv hs
  | errored => exact absurd hs hinv.2.2.2.2.2.2.1

/-- Claim C1: for every message that reaches acknowledgment, at the
moment (indeed in every reachable state in which) `acked` is true, both
`restarted` and `saved` are true: the `cleanup` callback can only have
run after the gather future completed, which requires both sub-operations
to have set their fields. -/
theorem acked_only_after_restarted_and_saved (n i : String) (s : HandlerState)
    (h : Reaches (initHandler (PubSubMessage.make n i)) s)
    (hack : s.msg.acked = true) :
    s.msg.restarted = true ∧ s.msg.saved = true := by
  have hinv := reaches_inv (initHandler_inv n i) h
  exact inv_gatherDone_flags hinv (hinv.2.2.2.2.1 (hinv.2.2.1.mp hack))

/-- Claim C2: along every interleaving of the two sub-operations the
`cleanup` finalization callback runs at most once, runs only after both
sub-tasks have finished (in whichever order they completed), runs exactly
once by the time `handle_message` returns, and from every reachable state
the handler can run on to a state where it has run exactly once and the
handler has returned. -/
theorem cleanup_exactly_once (n i : String) (s : HandlerState)
    (h : Reaches (initHandler (PubSubMessage.make n i)) s) :
    s.cleanupRuns ≤ 1 ∧
    (1 ≤ s.cleanupRuns → gatherDone s = true) ∧
    (s.resumed = true → s.cleanupRuns = 1) ∧
    ∃ t, Reaches s t ∧ t.cleanupRuns = 1 ∧ t.resumed = true := by
  have hinv := reaches_inv (initHandler_inv n i) h
  exact ⟨hinv.2.2.2.1, hinv.2.2.2.2.1, hinv.2.2.2.2.2.1, handler_progress hinv⟩

/-- Claim C9: when `handle_message(msg)` returns normally (its
`await g_future` resumed without an exception), all three status fields
of the message are true — the `cleanup` done-callback was registered
before the awaiting task's wakeup callback, so it fired first. -/
theorem handle_message_normal_return (n i : String) (s : HandlerState)
    (h : Reaches (initHandler (PubSubMessage.make n i)) s)
    (hres : s.resumed = true) :
    s.msg.restarted = true ∧ s.msg.saved = true ∧ s.msg.acked = true := by
  have hinv := reaches_inv (initHandler_inv n i) h
  have hone : s.cleanupRuns = 1 := hinv.2.2.2.2.2.1 hres
  have hdone : gatherDone s = true := hinv.2.2.2.2.1 (by omega)
  obtain ⟨hrst, hsvd⟩ := inv_gatherDone_flags hinv hdone
  exact ⟨hrst, hsvd, hinv.2.2.1.mpr (by omega)⟩

/-- A concrete complete execution of `handle_message` on the message
built from instance name "cattle-ab12" and id "m-1": the save sub-task
finishes first, then restart, then the `cleanup` callback runs, then the
coroutine resumes. -/
theorem example_trace :
    Reaches (initHandler (PubSubMessage.make "cattle-ab12" "m-1"))
      { msg := cleanup (restart_host (save (PubSubMessage.make "cattle-ab12" "m-1")))
                 GatherResult.ok
        saveTask := SubTask.done
        restartTask := SubTask.done
        cleanupRuns := 1
        resumed := true } := by
  refine Relation.ReflTransGen.head (Step.saveDone _ rfl) ?_
  refine Relation.ReflTransGen.head (Step.restartDone _ rfl) ?_
  refine Relation.ReflTransGen.head (Step.runCallback _ rfl rfl) ?_
  exact Relation.ReflTransGen.single (Step.resume _ rfl rfl rfl rfl)

theorem acked_only_after_restarted_and_saved_witness :
    (cleanup (restart_host (save (PubSubMessage.make "cattle-ab12" "m-1")))
      GatherResult.ok).restarted = true ∧
    (cleanup (restart_host (save (PubSubMessage.make "cattle-ab12" "m-1")))
      GatherResult.ok).saved = true :=
  acked_only_after_restarted_and_saved "cattle-ab12" "m-1" _ example_trace rfl

theorem cleanup_exactly_once_witness :
    (1 : Nat) ≤ 1 ∧
    gatherDone
      { msg := cleanup (restart_host (save (PubSubMessage.make "cattle-ab12" "m-1")))
                 GatherResult.ok
        saveTask := SubTask.done
        restartTask := SubTask.done
        cleanupRuns := 1
        resumed := true } = true := by
  have h := cleanup_exactly_once "cattle-ab12" "m-1" _ example_trace
  exact ⟨h.1, h.2.1 (by decide)⟩

theorem handle_message_normal_return_witness :
    (cleanup (restart_host (save (PubSubMessage.make "cattle-ab12" "m-1")))
      GatherResult.ok).restarted = true ∧
    (cleanup (restart_host (save (PubSubMessage.make "cattle-ab12" "m-1")))
      GatherResult.ok).saved = true ∧
    (cleanup (restart_host (save (PubSubMessage.make "cattle-ab12" "m-1")))
      GatherResult.ok).acked = true :=
  handle_message_normal_return "cattle-ab12" "m-1" _ example_trace rfl

/-- Small-step semantics of `handle_message` when the sub-operations are
taken as the fallible external collaborators of spec §6
(`restartResource`/`persistRecord`, each `fails-with(OperationFailed)`):
in addition to the steps of `Step`, either sleeping sub-task may finish
by raising, leaving its status field unset.  The handler's own code is
unchanged: `asyncio` still marks the gather future done once both
children have finished and still invokes its registered done-callbacks —
including `cleanup`, which ignores the future it is handed. -/
inductive FailStep : HandlerState → HandlerState → Prop
  | step : ∀ {s t : HandlerState}, Step s t → FailStep s t
  | saveFail : ∀ s : HandlerState, s.saveTask = SubTask.running →
      FailStep s { s with saveTask := SubTask.errored }
  | restartFail : ∀ s : HandlerState, s.restartTask = SubTask.running →
      FailStep s { s with restartTask := SubTask.errored }

/-- Reachability in zero or more steps of the failure-enabled semantics. -/
def FReaches : HandlerState → HandlerState → Prop :=
  Relation.ReflTransGen FailStep

/-- Claim C3 is violated by the code (spec §9 flags this as a must-fix
gap): when the save/persist sub-operation fails for a message, the
gather future completes as failed, but `cleanup` — which ignores its
`fut` argument — still runs once and still sets `acked = True`.  The
concrete execution below forces the save sub-task of one message to
raise: the final state has `saved = false` yet `cleanupRuns = 1` and
`acked = true`, where the claim requires finalization not to run and
`acked` to stay false. -/
theorem cleanup_acks_despite_failure :
    FReaches (initHandler (PubSubMessage.make "cattle-fail" "m-2"))
      { msg := cleanup (restart_host (PubSubMessage.make "cattle-fail" "m-2"))
                 GatherResult.failed
        saveTask := SubTask.errored
        restartTask := SubTask.done
        cleanupRuns := 1
        resumed := false } ∧
    (cleanup (restart_host (PubSubMessage.make "cattle-fail" "m-2"))
      GatherResult.failed).saved = false ∧
    (cleanup (restart_host (PubSubMessage.make "cattle-fail" "m-2"))
      GatherResult.failed).acked = true := by
  refine ⟨?_, rfl, rfl⟩
  refine Relation.ReflTransGen.head (FailStep.saveFail _ rfl) ?_
  refine Relation.ReflTransGen.head (FailStep.step (Step.restartDone _ rfl)) ?_
  exact Relation.ReflTransGen.single (FailStep.step (Step.runCallback _ rfl rfl))

/-- Joint state of the consumer loop of `mayhem.py` and the handler
tasks it has spawned: the messages still sitting in the queue, and the
states of the already-dispatched `handle_message` tasks. -/
structure ConsumerState where
  queue : List PubSubMessage
  handlers : List HandlerState

/-- Small-step semantics of `consume(queue)` running alongside its
spawned handler tasks.  The loop body is
`msg = await queue.get()` followed by
`asyncio.create_task(handle_message(msg))`: dequeuing the head and
spawning a fresh handler task is a single consumer step, after which the
consumer is back at the dequeue — there is no consumer state that waits
on a handler.  Independently, any spawned handler may take any of its
own steps. -/
inductive SysStep : ConsumerState → ConsumerState → Prop
  | dispatch : ∀ (m : PubSubMessage) (rest : List PubSubMessage)
      (hs : List HandlerState),
      SysStep ⟨m :: rest, hs⟩ ⟨rest, hs ++ [initHandler m]⟩
  | handlerStep : ∀ (q : List PubSubMessage) (pre post : List HandlerState)
      {h h2 : HandlerState}, Step h h2 →
      SysStep ⟨q, pre ++ h :: post⟩ ⟨q, pre ++ h2 :: post⟩

/-- Reachability in zero or more system steps. -/
def SysReaches : ConsumerState → ConsumerState → Prop :=
  Relation.ReflTransGen SysStep

/-- The consumer alone can drain the whole queue, spawning one handler
per message in dequeue order, with no handler step interleaved. -/
theorem consume_drains (q : List PubSubMessage) (hs : List HandlerState) :
    SysReaches ⟨q, hs⟩ ⟨[], hs ++ q.map initHandler⟩ := by
  induction q generalizing hs with
  | nil => simpa using Relation.ReflTransGen.refl
  | cons m rest ih =>
      refine Relation.ReflTransGen.head (SysStep.dispatch m rest hs) ?_
      simpa [List.append_assoc] using ih (hs ++ [initHandler m])

/-- Claim C4: whenever the queue is non-empty, the consumer's
dequeue-and-dispatch step is enabled no matter what state the spawned
handlers are in, and it returns the consumer directly to the next
dequeue with a fresh independently scheduled handler task appended;
consequently the consumer can take in an entire queue without a single
handler step occurring — handler latency never throttles intake. -/
theorem consume_never_waits (m : PubSubMessage) (rest q : List PubSubMessage)
    (hs : List HandlerState) :
    SysStep ⟨m :: rest, hs⟩ ⟨rest, hs ++ [initHandler m]⟩ ∧
    SysReaches ⟨q, hs⟩ ⟨[], hs ++ q.map initHandler⟩ :=
  ⟨SysStep.dispatch m rest hs, consume_drains q hs⟩

end Mayhem

namespace Mayhem4

/-- The message class of `mayhem_4.py`: constructor arguments
`instance_name` and `message_id` (the latter is the loop counter `x`, an
integer), plus the non-`init` `hostname` computed in
`__attrs_post_init__`. -/
structure PubSubMessage where
  instance_name : String
  message_id : Nat
  hostname : String
deriving DecidableEq

/-- Construction as `attrs` performs it, including
`self.hostname = f"{self.instance_name}.example.net"`. -/
def PubSubMessage.make (instance_name : String) (message_id : Nat) : PubSubMessage :=
  { instance_name := instance_name
    message_id := message_id
    hostname := instance_name ++ ".example.net" }

/-- The sequence of items `publish(queue, n)` of `mayhem_4.py` enqueues:
for `x in range(1, n + 1)` a message with `message_id = x` and
`instance_name = "cattle-" ++ host_id`, then the sentinel `None` once.
The random four-character `host_id` drawn for iteration `x` is supplied
by the oracle `hostId`. -/
def publish (n : Nat) (hostId : Nat → String) : List (Option PubSubMessage) :=
  (List.range' 1 n).map
    (fun x => some (PubSubMessage.make ("cattle-" ++ hostId x) x)) ++ [none]

/-- The consumer loop of `mayhem_4.py` applied to the sequence of items
it will dequeue: it processes messages one at a time and breaks out of
the loop on the `None` sentinel.  Result: the messages processed in
order, and whether the loop stopped normally via the sentinel (`false`
means the consumer is still blocked on an empty queue). -/
def consume : List (Option PubSubMessage) → List PubSubMessage × Bool
  | [] => ([], false)
  | none :: _ => ([], true)
  | some m :: rest => (m :: (consume rest).1, (consume rest).2)

/-- Consuming a run of messages followed by the sentinel processes
exactly those messages in order and then stops. -/
theorem consume_map_some (l : List PubSubMessage) (more : List (Option PubSubMessage)) :
    consume (l.map some ++ (none :: more)) = (l, true) := by
  induction l with
  | nil => rfl
  | cons m rest ih => simp [consume, ih]

/-- The published run contains no sentinel before the final one. -/
theorem publish_count_none (n : Nat) (hostId : Nat → String) :
    (publish n hostId).count none = 1 := by
  have h0 : ((List.range' 1 n).map
      (fun x => some (PubSubMessage.make ("cattle-" ++ hostId x) x))).count
      (none : Option PubSubMessage) = 0 :=
    List.count_eq_zero.mpr (by simp)
  simp [publish, List.count_append, h0]

end Mayhem4

namespace Mayhem1

/-- The message class of `part_1/mayhem_1.py` — identical in shape to
the one of `mayhem_4.py`. -/
structure PubSubMessage where
  instance_name : String
  message_id : Nat
  hostname : String
deriving DecidableEq

/-- Construction as `attrs` performs it. -/
def PubSubMessage.make (instance_name : String) (message_id : Nat) : PubSubMessage :=
  { instance_name := instance_name
    message_id := message_id
    hostname := instance_name ++ ".example.net" }

/-- The sequence of items the synchronous `publish(queue, n)` of
`part_1/mayhem_1.py` enqueues: `n` messages with `message_id = x` for
`x in range(1, n + 1)`, then `None` once. -/
def publish (n : Nat) (hostId : Nat → String) : List (Option PubSubMessage) :=
  (List.range' 1 n).map
    (fun x => some (PubSubMessage.make ("cattle-" ++ hostId x) x)) ++ [none]

/-- The synchronous consumer loop of `part_1/mayhem_1.py` applied to the
sequence of items it will dequeue: processes messages until it dequeues
the `None` sentinel, then breaks. -/
def consume : List (Option PubSubMessage) → List PubSubMessage × Bool
  | [] => ([], false)
  | none :: _ => ([], true)
  | some m :: rest => (m :: (consume rest).1, (consume rest).2)

theorem consume_map_some_sync (l : List PubSubMessage) (more : List (Option PubSubMessage)) :
    consume (l.map some ++ (none :: more)) = (l, true) := by
  induction l with
  | nil => rfl
  | cons m rest ih => simp [consume, ih]

theorem publish_count_none_sync (n : Nat) (hostId : Nat → String) :
    (publish n hostId).count none = 1 := by
  have h0 : ((List.range' 1 n).map
      (fun x => some (PubSubMessage.make ("cattle-" ++ hostId x) x))).count
      (none : Option PubSubMessage) = 0 :=
    List.count_eq_zero.mpr (by simp)
  simp [publish, List.count_append, h0]

end Mayhem1

/-- Claim C5: in bounded mode with count `n`, the producer of
`mayhem_4.py` enqueues exactly `n` messages (with ids `1..n`, in order)
followed by exactly one termination sentinel and stops; the consumer
processes exactly those `n` messages in order and then stops normally on
the sentinel.  The same holds for the synchronous variant
`part_1/mayhem_1.py`. -/
theorem bounded_mode_publish_consume (n : Nat) (hostId : Nat → String) :
    ((Mayhem4.publish n hostId).length = n + 1 ∧
     (Mayhem4.publish n hostId).count none = 1 ∧
     (Mayhem4.publish n hostId).getLast? = some none ∧
     (Mayhem4.consume (Mayhem4.publish n hostId)).1.length = n ∧
     (Mayhem4.consume (Mayhem4.publish n hostId)).1.map Mayhem4.PubSubMessage.message_id
       = List.range' 1 n ∧
     (Mayhem4.consume (Mayhem4.publish n hostId)).2 = true) ∧
    ((Mayhem1.publish n hostId).length = n + 1 ∧
     (Mayhem1.publish n hostId).count none = 1 ∧
     (Mayhem1.publish n hostId).getLast? = some none ∧
     (Mayhem1.consume (Mayhem1.publish n hostId)).1.length = n ∧
     (Mayhem1.consume (Mayhem1.publish n hostId)).1.map Mayhem1.PubSubMessage.message_id
       = List.range' 1 n ∧
     (Mayhem1.consume (Mayhem1.publish n hostId)).2 = true) := by
  have h4 : Mayhem4.consume (Mayhem4.publish n hostId)
      = ((List.range' 1 n).map (fun x => Mayhem4.PubSubMessage.make ("cattle-" ++ hostId x) x), true) := by
    have := Mayhem4.consume_map_some
      ((List.range' 1 n).map (fun x => Mayhem4.PubSubMessage.make ("cattle-" ++ hostId x) x)) []
    simpa [Mayhem4.publish, List.map_map, Function.comp] using this
  have h1 : Mayhem1.consume (Mayhem1.publish n hostId)
      = ((List.range' 1 n).map (fun x => Mayhem1.PubSubMessage.make ("cattle-" ++ hostId x) x), true) := by
    have := Mayhem1.consume_map_some_sync
      ((List.range' 1 n).map (fun x => Mayhem1.PubSubMessage.make ("cattle-" ++ hostId x) x)) []
    simpa [Mayhem1.publish, List.map_map, Function.comp] using this
  refine ⟨⟨?_, Mayhem4.publish_count_none n hostId, ?_, ?_, ?_, ?_⟩,
          ⟨?_, Mayhem1.publish_count_none_sync n hostId, ?_, ?_, ?_, ?_⟩⟩
  · simp [Mayhem4.publish]
  · simp [Mayhem4.publish]
  · simp [h4]
  · simp [h4, List.map_map, Function.comp_def, Mayhem4.PubSubMessage.make]
  · simp [h4]
  · simp [Mayhem1.publish]
  · simp [Mayhem1.publish]
  · simp [h1]
  · simp [h1, List.map_map, Function.comp_def, Mayhem1.PubSubMessage.make]
  · simp [h1]

/-- Modelled from the spec: the Work Queue of §4.1 is realized in the
sources by the Python standard-library classes `asyncio.Queue`
(`mayhem.py`, `mayhem_4.py`) and `queue.Queue` (`part_1/mayhem_1.py`),
whose implementations are not part of this repository.  Per §4.1,
`enqueue(item)` inserts at the tail and `dequeue()` removes and returns
the head; ordering is FIFO across a single queue instance. -/
structure WorkQueue (α : Type) where
  items : List α
deriving DecidableEq

/-- A freshly created, empty queue. -/
def WorkQueue.empty (α : Type) : WorkQueue α := ⟨[]⟩

/-- Operation `enqueue(item)` of §4.1: insert at the tail. -/
def WorkQueue.enqueue {α : Type} (q : WorkQueue α) (a : α) : WorkQueue α :=
  ⟨q.items ++ [a]⟩

/-- Operation `dequeue()` of §4.1: remove and return the head; `none`
models the calling consumer suspending on an empty queue. -/
def WorkQueue.dequeue {α : Type} : WorkQueue α → Option (α × WorkQueue α)
  | ⟨[]⟩ => none
  | ⟨a :: rest⟩ => some (a, ⟨rest⟩)

/-- Enqueue a sequence of items one at a time, in order. -/
def WorkQueue.enqueueAll {α : Type} (q : WorkQueue α) : List α → WorkQueue α
  | [] => q
  | a :: rest => (q.enqueue a).enqueueAll rest

/-- Relation `DequeueSeq q xs`: repeatedly calling `dequeue` on `q`
returns exactly the items `xs`, in that order, and then finds the queue
empty. -/
inductive DequeueSeq {α : Type} : WorkQueue α → List α → Prop
  | nil : ∀ q : WorkQueue α, q.dequeue = none → DequeueSeq q []
  | cons : ∀ (q q2 : WorkQueue α) (a : α) (rest : List α),
      q.dequeue = some (a, q2) → DequeueSeq q2 rest → DequeueSeq q (a :: rest)

theorem WorkQueue.enqueueAll_items {α : Type} (xs : List α) :
    ∀ l : List α, (WorkQueue.enqueueAll ⟨l⟩ xs).items = l ++ xs := by
  induction xs with
  | nil => intro l; simp [WorkQueue.enqueueAll]
  | cons a rest ih =>
      intro l
      simpa [WorkQueue.enqueueAll, WorkQueue.enqueue] using ih (l ++ [a])

theorem WorkQueue.dequeueSeq_of_items {α : Type} (l : List α) :
    DequeueSeq (⟨l⟩ : WorkQueue α) l := by
  induction l with
  | nil => exact DequeueSeq.nil _ rfl
  | cons a rest ih => exact DequeueSeq.cons _ _ a rest rfl ih

/-- Claim C6: the Work Queue is FIFO — enqueueing any sequence of items
onto a fresh queue and then repeatedly dequeueing returns exactly that
sequence in enqueue order; in particular items with identities
`[1, 2, 3, 4, 5]` come out as `[1, 2, 3, 4, 5]`. -/
theorem workQueue_fifo {α : Type} (xs : List α) :
    DequeueSeq ((WorkQueue.empty α).enqueueAll xs) xs ∧
    DequeueSeq ((WorkQueue.empty Nat).enqueueAll [1, 2, 3, 4, 5]) [1, 2, 3, 4, 5] := by
  have key : ∀ (β : Type) (ys : List β), DequeueSeq ((WorkQueue.empty β).enqueueAll ys) ys := by
    intro β ys
    have h : (WorkQueue.empty β).enqueueAll ys = ⟨ys⟩ := by
      have h2 : ((WorkQueue.empty β).enqueueAll ys).items = ys := by
        simpa [WorkQueue.empty] using WorkQueue.enqueueAll_items ys ([] : List β)
      exact congrArg WorkQueue.mk h2
    rw [h]
    exact WorkQueue.dequeueSeq_of_items ys
  exact ⟨key α xs, key Nat [1, 2, 3, 4, 5]⟩

/-- Claim C7: the derived hostname is computed deterministically from
`instance_name` at construction time — two messages built with the same
`instance_name` (and arbitrary `message_id`s) get the same hostname,
namely `instance_name ++ ".example.net"` — and no pipeline operation
(`restart_host`, `save`, the `cleanup` callback) ever changes it
afterwards.  The same construction rule holds for the message classes of
`mayhem_4.py` and `part_1/mayhem_1.py`, which no operation mutates at
all. -/
theorem hostname_deterministic_and_immutable
    (n id1 id2 : String) (k1 k2 : Nat) (m : Mayhem.PubSubMessage)
    (f : Mayhem.GatherResult) :
    (Mayhem.PubSubMessage.make n id1).hostname
      = (Mayhem.PubSubMessage.make n id2).hostname ∧
    (Mayhem.PubSubMessage.make n id1).hostname = n ++ ".example.net" ∧
    (Mayhem.restart_host m).hostname = m.hostname ∧
    (Mayhem.save m).hostname = m.hostname ∧
    (Mayhem.cleanup m f).hostname = m.hostname ∧
    (Mayhem4.PubSubMessage.make n k1).hostname
      = (Mayhem4.PubSubMessage.make n k2).hostname ∧
    (Mayhem4.PubSubMessage.make n k1).hostname = n ++ ".example.net" ∧
    (Mayhem1.PubSubMessage.make n k1).hostname
      = (Mayhem1.PubSubMessage.make n k2).hostname ∧
    (Mayhem1.PubSubMessage.make n k1).hostname = n ++ ".example.net" :=
  ⟨rfl, rfl, rfl, rfl, rfl, rfl, rfl, rfl, rfl⟩
